import Mathlib

/-!
Shallow embedding of the Game of Life simulator in src/src/main.rs.

Machine integers are modelled as Nat with explicit wrapping where the
source type can overflow: the age inside an alive cell is a u8, so the
age increment is taken modulo 2^8; the sleep interval is a u64, so its
adjustments are taken modulo 2^64. Fallible operations (array indexing,
which panics when out of bounds, and the try_into length conversion)
return Option, with none standing for the panic. Floating-point values
(the seed ratio and the random draws) are modelled as rationals; the
only operation the seeding code performs on them is a comparison.
-/

set_option maxRecDepth 100000

namespace Life

/-- The Cell enum from main.rs: alive with a u8 age, or dead. -/
inductive Cell where
  | Alive : Nat → Cell
  | Dead : Cell
deriving DecidableEq, Repr

/-- The Command enum from main.rs. -/
inductive Command where
  | Pause : Command
  | Redraw : Command
  | HigherRatio : Command
  | LowerRatio : Command
  | Faster : Command
  | Slower : Command
deriving DecidableEq, Repr

/-- The WIDTH constant from main.rs. -/
def WIDTH : Nat := 20

/-- Resolver for the north-west neighbour, from get_nw in main.rs. -/
def get_nw (cell : Nat) : Option Nat :=
  if cell % WIDTH == 0 || cell < WIDTH then none
  else some (cell - (WIDTH + 1))

/-- Resolver for the north neighbour, from get_n in main.rs. -/
def get_n (cell : Nat) : Option Nat :=
  if cell < WIDTH then none
  else some (cell - WIDTH)

/-- Resolver for the north-east neighbour, from get_ne in main.rs. -/
def get_ne (cell : Nat) : Option Nat :=
  if cell < WIDTH || cell % WIDTH == WIDTH - 1 then none
  else some (cell - (WIDTH - 1))

/-- Resolver for the west neighbour, from get_w in main.rs. -/
def get_w (cell : Nat) : Option Nat :=
  if cell % WIDTH == 0 then none
  else some (cell - 1)

/-- Resolver for the east neighbour, from get_e in main.rs. -/
def get_e (cell : Nat) : Option Nat :=
  if cell % WIDTH == WIDTH - 1 then none
  else some (cell + 1)

/-- Resolver for the south-west neighbour, from get_sw in main.rs. -/
def get_sw (cell : Nat) : Option Nat :=
  if cell % WIDTH == 0 || cell ≥ WIDTH * (WIDTH - 1) then none
  else some (cell + (WIDTH - 1))

/-- Resolver for the south neighbour, from get_s in main.rs. -/
def get_s (cell : Nat) : Option Nat :=
  if cell ≥ WIDTH * (WIDTH - 1) then none
  else some (cell + WIDTH)

/-- Resolver for the south-east neighbour, from get_se in main.rs. -/
def get_se (cell : Nat) : Option Nat :=
  if cell % WIDTH == WIDTH - 1 || cell ≥ WIDTH * (WIDTH - 1) then none
  else some (cell + WIDTH + 1)

/-- From find_neighbour_state in main.rs: a some address indexes the board
(the Rust indexing panics when out of bounds, modelled by none), while a
none address stands for off-grid space and maps to Dead. -/
def find_neighbour_state (address : Option Nat) (state : List Cell) : Option Cell :=
  match address with
  | some n => state[n]?
  | none => some Cell.Dead

/-- From get_neighbours in main.rs: resolve the eight directions in the
fixed order NW, N, NE, E, W, SW, S, SE and look each one up. -/
def get_neighbours (cell : Nat) (state : List Cell) : Option (List Cell) :=
  [get_nw cell,
   get_n cell,
   get_ne cell,
   get_e cell,
   get_w cell,
   get_sw cell,
   get_s cell,
   get_se cell].mapM (fun address => find_neighbour_state address state)

/-- From count_neighbours in main.rs: count the Alive entries. -/
def count_neighbours (neighbours : List Cell) : Nat :=
  neighbours.foldl
    (fun count cell =>
      match cell with
      | Cell.Alive _ => count + 1
      | Cell.Dead => count) 0

/-- From get_new_cell_state in main.rs. The age is a u8, so the increment
on survival wraps modulo 2^8. -/
def get_new_cell_state (cell : Cell) (neighbour_count : Nat) : Cell :=
  match cell with
  | Cell.Alive n =>
      if neighbour_count > 1 && neighbour_count < 4 then
        Cell.Alive ((n + 1) % 2 ^ 8)
      else
        Cell.Dead
  | Cell.Dead =>
      if neighbour_count == 3 then
        Cell.Alive 0
      else
        Cell.Dead

/-- From get_updated_board in main.rs: for each index of the input board,
read the cell, sample its neighbours, count the alive ones and apply the
transition rule; none models the indexing panics. -/
def get_updated_board (state : List Cell) : Option (List Cell) :=
  (List.range state.length).mapM (fun i => do
    let cell ← state[i]?
    let neighbours ← get_neighbours i state
    pure (get_new_cell_state cell (count_neighbours neighbours)))

/-- From generate_board in main.rs: the random draws are supplied as an
explicit sequence; position k is alive exactly when its draw is strictly
greater than the ratio. The final if models the fallible try_into length
conversion on the pushed vector. -/
def generate_board (ratio : ℚ) (draws : Nat → ℚ) : Option (List Cell) :=
  let new_board :=
    (List.range (WIDTH * WIDTH)).map
      (fun k => if draws k > ratio then Cell.Alive 0 else Cell.Dead)
  if new_board.length = WIDTH * WIDTH then some new_board else none

/-- The cell a resolved address denotes inside a given board, with Dead
for off-grid addresses; used to state what the sampler returns. -/
def sample (state : List Cell) (address : Option Nat) : Cell :=
  match address with
  | some n => state.getD n Cell.Dead
  | none => Cell.Dead

/-- The eight sampled neighbour cells of index i, in the order the code
uses, phrased with sample; used to state what get_neighbours returns. -/
def neighbourSamples (i : Nat) (state : List Cell) : List Cell :=
  [sample state (get_nw i),
   sample state (get_n i),
   sample state (get_ne i),
   sample state (get_e i),
   sample state (get_w i),
   sample state (get_sw i),
   sample state (get_s i),
   sample state (get_se i)]

/-- The list generate_board builds; used to state seeding results. -/
def seedList (ratio : ℚ) (draws : Nat → ℚ) : List Cell :=
  (List.range (WIDTH * WIDTH)).map
    (fun k => if draws k > ratio then Cell.Alive 0 else Cell.Dead)

/-- The mutable state owned by the simulation thread spawned in main, from
main.rs lines 33 to 37: active, frame, ratio, board and sleep. The frame
counter is modelled as an unbounded Nat since no claim depends on its
width; the sleep interval is a u64, handled with explicit wrapping. -/
structure SimState where
  active : Bool
  frame : Nat
  ratio : ℚ
  board : List Cell
  sleep : Nat
deriving Repr

/-- The Faster command handler from main.rs line 58: the sleep interval is
a u64, so subtracting 50 wraps modulo 2^64. -/
def fasterSleep (sleep : Nat) : Nat := (sleep + (2 ^ 64 - 50)) % 2 ^ 64

/-- The Slower command handler from main.rs line 59: adding 50 to the u64
sleep interval, modulo 2^64. -/
def slowerSleep (sleep : Nat) : Nat := (sleep + 50) % 2 ^ 64

/-- One iteration of the simulation loop from main.rs lines 39 to 63: when
active, increment the frame, render, and replace the board with the
stepped board; then apply the received command, if any, to the state.
Rendering is output only and touches no state; the received command is
the value try_recv produced, none when the channel was empty. The none
result of the whole iteration models a panic inside the iteration. -/
def loop_iter (s : SimState) (msg : Option Command) (draws : Nat → ℚ) :
    Option SimState := do
  let s1 ←
    if s.active then do
      let b ← get_updated_board s.board
      some { s with frame := s.frame + 1, board := b }
    else
      some s
  match msg with
  | some Command.Pause => some { s1 with active := !s1.active }
  | some Command.Redraw => do
      let b ← generate_board s1.ratio draws
      some { s1 with board := b }
  | some Command.HigherRatio => some { s1 with ratio := s1.ratio + 0.05 }
  | some Command.LowerRatio => some { s1 with ratio := s1.ratio - 0.05 }
  | some Command.Faster => some { s1 with sleep := fasterSleep s1.sleep }
  | some Command.Slower => some { s1 with sleep := slowerSleep s1.sleep }
  | none => some s1

/-- The try_recv call from main.rs line 52 against a FIFO queue model of
the mpsc channel: an empty queue yields no command and no wait, a
non-empty queue yields its oldest element and the rest. -/
def try_recv (queue : List Command) : Option Command × List Command :=
  match queue with
  | [] => (none, [])
  | c :: rest => (some c, rest)

/-- One full tick against the channel queue: receive without blocking,
then run the iteration with whatever was received. -/
def sim_tick (s : SimState) (queue : List Command) (draws : Nat → ℚ) :
    Option (SimState × List Command) :=
  let m := try_recv queue
  (loop_iter s m.1 draws).map (fun s2 => (s2, m.2))

/-- Several successive ticks, with a fresh draw sequence each tick. -/
def run_ticks : Nat → SimState → List Command → (Nat → Nat → ℚ) →
    Option (SimState × List Command)
  | 0, s, queue, _ => some (s, queue)
  | n + 1, s, queue, dseq => do
      let r ← sim_tick s queue (dseq 0)
      run_ticks n r.1 r.2 (fun k => dseq (k + 1))

/-- Applying a list of commands in order, one iteration each; used to
state that a backlog drains in FIFO order. -/
def applyAll : SimState → List Command → (Nat → Nat → ℚ) → Option SimState
  | s, [], _ => some s
  | s, c :: rest, dseq => do
      let s2 ← loop_iter s (some c) (dseq 0)
      applyAll s2 rest (fun k => dseq (k + 1))

/-- The sleep interval after n consecutive Faster commands, starting from
the initial 700 of main.rs line 37. -/
def speedUps : Nat → Nat
  | 0 => 700
  | n + 1 => fasterSleep (speedUps n)

/-! Shared helper lemmas. -/

theorem generate_board_eq (ratio : ℚ) (draws : Nat → ℚ) :
    generate_board ratio draws = some (seedList ratio draws) := by
  simp [generate_board, seedList, WIDTH]

theorem mapM_option_eq_map {α β : Type} (f : α → Option β) (g : α → β)
    (l : List α) (h : ∀ a ∈ l, f a = some (g a)) : l.mapM f = some (l.map g) := by
  induction l with
  | nil => rfl
  | cons a t ih =>
      simp only [List.mapM_cons, h a (List.mem_cons_self a t),
        ih (fun x hx => h x (List.mem_cons_of_mem a hx)), List.map_cons]
      rfl

theorem getElem?_eq_getD {α : Type} (l : List α) (i : Nat) (d : α)
    (h : i < l.length) : l[i]? = some (l.getD i d) := by
  simp [List.getElem?_eq_getElem h, List.getD_eq_getElem?_getD]

/-! Theorems for the claims. -/

/-- C1, counterexample: at the u8 age cap the survival branch does not
return Alive of age plus one; the increment wraps to Alive 0. -/
theorem get_new_cell_state_age_cap_cex :
    get_new_cell_state (Cell.Alive 255) 2 = Cell.Alive 0 ∧
    Cell.Alive 0 ≠ Cell.Alive (255 + 1) := by
  decide

/-- C1, amended: for every cell with a representable u8 age and every
neighbour count in the range 0 to 8, survival with count 2 or 3 yields
Alive with the age incremented modulo 2^8 (hence age plus one whenever
age is below 255), any other count kills an alive cell, a dead cell is
born as Alive 0 at count exactly 3 and stays Dead otherwise. -/
theorem get_new_cell_state_spec :
    (∀ age, age < 2 ^ 8 → ∀ c, c ≤ 8 →
      get_new_cell_state (Cell.Alive age) c =
        if c = 2 ∨ c = 3 then Cell.Alive ((age + 1) % 2 ^ 8) else Cell.Dead) ∧
    (∀ c, c ≤ 8 →
      get_new_cell_state Cell.Dead c =
        if c = 3 then Cell.Alive 0 else Cell.Dead) := by
  constructor
  · decide
  · decide

/-- C1, witness for the amended rule at age 0 and count 3. -/
theorem get_new_cell_state_spec_witness :
    get_new_cell_state (Cell.Alive 0) 3 =
      if (3 : Nat) = 2 ∨ (3 : Nat) = 3 then Cell.Alive ((0 + 1) % 2 ^ 8)
      else Cell.Dead :=
  get_new_cell_state_spec.1 0 (by decide) 3 (by decide)

/-- C9: the age is stored in 8 bits; at age 255 a surviving cell wraps to
Alive 0 rather than reaching Alive 256, and the unbounded ages-by-one
behaviour holds exactly under the precondition age below 255. -/
theorem age_increment_wraps :
    get_new_cell_state (Cell.Alive 255) 2 = Cell.Alive 0 ∧
    get_new_cell_state (Cell.Alive 255) 3 = Cell.Alive 0 ∧
    get_new_cell_state (Cell.Alive 255) 2 ≠ Cell.Alive 256 ∧
    (∀ age, age < 255 →
      get_new_cell_state (Cell.Alive age) 2 = Cell.Alive (age + 1) ∧
      get_new_cell_state (Cell.Alive age) 3 = Cell.Alive (age + 1)) := by
  refine ⟨by decide, by decide, by decide, ?_⟩
  decide

/-- C9, witness at age 7. -/
theorem age_increment_wraps_witness :
    get_new_cell_state (Cell.Alive 7) 2 = Cell.Alive (7 + 1) ∧
    get_new_cell_state (Cell.Alive 7) 3 = Cell.Alive (7 + 1) :=
  age_increment_wraps.2.2.2 7 (by decide)

/-- C2: on the 20 by 20 grid each of the eight direction resolvers is
None exactly at its documented boundary condition and otherwise returns
the index shifted by the documented offset, and every Some result lies
within the board, below 400. -/
theorem resolver_spec :
    ∀ i, i < 400 →
      (get_nw i = if i % 20 == 0 || i < 20 then none else some (i - 21)) ∧
      (get_n i = if i < 20 then none else some (i - 20)) ∧
      (get_ne i = if i < 20 || i % 20 == 19 then none else some (i - 19)) ∧
      (get_w i = if i % 20 == 0 then none else some (i - 1)) ∧
      (get_e i = if i % 20 == 19 then none else some (i + 1)) ∧
      (get_sw i = if i % 20 == 0 || 380 ≤ i then none else some (i + 19)) ∧
      (get_s i = if 380 ≤ i then none else some (i + 20)) ∧
      (get_se i = if i % 20 == 19 || 380 ≤ i then none else some (i + 21)) ∧
      (∀ j ∈ [get_nw i, get_n i, get_ne i, get_e i,
              get_w i, get_sw i, get_s i, get_se i].reduceOption, j < 400) := by
  decide

/-- C2, witness at index 21, one row and one column in from the corner. -/
theorem resolver_spec_witness :
    get_nw 21 = if 21 % 20 == 0 || 21 < 20 then none else some (21 - 21) :=
  (resolver_spec 21 (by decide)).1

/-- C4: for every ratio, even outside the unit interval, and every draw
sequence, seeding succeeds and returns exactly 400 cells, and position k
is Alive 0 exactly when its draw is strictly greater than the ratio. -/
theorem generate_board_spec (ratio : ℚ) (draws : Nat → ℚ) :
    generate_board ratio draws = some (seedList ratio draws) ∧
    (seedList ratio draws).length = 400 ∧
    (∀ k, k < 400 →
      (seedList ratio draws)[k]? =
        some (if draws k > ratio then Cell.Alive 0 else Cell.Dead)) := by
  refine ⟨?_, ?_, ?_⟩
  · simp [generate_board, seedList, WIDTH]
  · simp [seedList, WIDTH]
  · intro k hk
    simp [seedList, WIDTH, List.getElem?_map, List.getElem?_range hk]

/-- C4, witness at ratio 7 over 10, constant draws of one half, index 0. -/
theorem generate_board_spec_witness :
    (seedList (7 / 10) (fun _ => 1 / 2))[0]? =
      some (if (fun _ => (1 : ℚ) / 2) 0 > 7 / 10 then Cell.Alive 0 else Cell.Dead) :=
  (generate_board_spec (7 / 10) (fun _ => 1 / 2)).2.2 0 (by decide)

/-- Every address a resolver produces for an on-board index is on the
board; shared by the sampler and the step proofs. -/
theorem resolver_mem_lt :
    ∀ i, i < 400 →
      ∀ j ∈ [get_nw i, get_n i, get_ne i, get_e i,
             get_w i, get_sw i, get_s i, get_se i].reduceOption, j < 400 := by
  decide

/-- Looking up an in-bounds or absent address yields the sampled cell. -/
theorem find_eq_sample (state : List Cell) (a : Option Nat)
    (h : ∀ j, a = some j → j < state.length) :
    find_neighbour_state a state = some (sample state a) := by
  cases a with
  | none => rfl
  | some j => exact getElem?_eq_getD state j Cell.Dead (h j rfl)

/-- On a full board the sampler returns exactly the eight sampled cells. -/
theorem get_neighbours_eq_samples (i : Nat) (state : List Cell)
    (hi : i < 400) (hs : state.length = 400) :
    get_neighbours i state = some (neighbourSamples i state) := by
  have hmem : ∀ a ∈ [get_nw i, get_n i, get_ne i, get_e i,
      get_w i, get_sw i, get_s i, get_se i],
      find_neighbour_state a state = some (sample state a) := by
    intro a ha
    apply find_eq_sample
    intro j hj
    rw [hs]
    exact resolver_mem_lt i hi j (List.reduceOption_mem_iff.mpr (hj ▸ ha))
  have h := mapM_option_eq_map (fun a => find_neighbour_state a state)
    (sample state)
    [get_nw i, get_n i, get_ne i, get_e i, get_w i, get_sw i, get_s i, get_se i]
    hmem
  simpa [get_neighbours, neighbourSamples] using h

/-- C5: for every index below 400 and every board of length 400, the
sampler succeeds, returning exactly the eight cells in the fixed order
NW, N, NE, E, W, SW, S, SE with Dead substituted for every direction the
resolver maps to none; no lookup is out of bounds. -/
theorem get_neighbours_spec (i : Nat) (state : List Cell)
    (hi : i < 400) (hs : state.length = 400) :
    get_neighbours i state = some (neighbourSamples i state) ∧
    (neighbourSamples i state).length = 8 :=
  ⟨get_neighbours_eq_samples i state hi hs, rfl⟩

/-- C5, witness at index 0 on the all-dead board. -/
theorem get_neighbours_spec_witness :
    get_neighbours 0 (List.replicate 400 Cell.Dead) =
      some (neighbourSamples 0 (List.replicate 400 Cell.Dead)) ∧
    (neighbourSamples 0 (List.replicate 400 Cell.Dead)).length = 8 :=
  get_neighbours_spec 0 (List.replicate 400 Cell.Dead) (by decide) (by simp)

/-- C3: stepping a board of length 400 succeeds and equals the map that
sends every index to the transition rule applied to the cell at that
index and the count of alive cells among its eight sampled neighbours;
in particular the result has the same length and the stated value at
every index, and the output is a function of the input alone. -/
theorem get_updated_board_spec (state : List Cell) (hs : state.length = 400) :
    get_updated_board state =
      some ((List.range state.length).map (fun i =>
        get_new_cell_state (state.getD i Cell.Dead)
          (count_neighbours (neighbourSamples i state)))) ∧
    (∀ result, get_updated_board state = some result →
      result.length = state.length ∧
      ∀ i, i < 400 → result[i]? =
        some (get_new_cell_state (state.getD i Cell.Dead)
          (count_neighbours (neighbourSamples i state)))) := by
  have hmain : get_updated_board state =
      some ((List.range state.length).map (fun i =>
        get_new_cell_state (state.getD i Cell.Dead)
          (count_neighbours (neighbourSamples i state)))) := by
    unfold get_updated_board
    apply mapM_option_eq_map
    intro i hi
    have hilt : i < state.length := List.mem_range.mp hi
    rw [getElem?_eq_getD state i Cell.Dead hilt,
      get_neighbours_eq_samples i state (hs ▸ hilt) hs]
    rfl
  refine ⟨hmain, ?_⟩
  intro result hres
  rw [hmain] at hres
  obtain rfl := Option.some.inj hres.symm
  constructor
  · simp
  · intro i hi
    rw [List.getElem?_map, List.getElem?_range (hs ▸ hi)]
    rfl

/-- C3, witness on the all-dead board of length 400. -/
theorem get_updated_board_spec_witness :
    get_updated_board (List.replicate 400 Cell.Dead) =
      some ((List.range (List.replicate 400 Cell.Dead).length).map (fun i =>
        get_new_cell_state ((List.replicate 400 Cell.Dead).getD i Cell.Dead)
          (count_neighbours (neighbourSamples i (List.replicate 400 Cell.Dead))))) ∧
    (∀ result, get_updated_board (List.replicate 400 Cell.Dead) = some result →
      result.length = (List.replicate 400 Cell.Dead).length ∧
      ∀ i, i < 400 → result[i]? =
        some (get_new_cell_state ((List.replicate 400 Cell.Dead).getD i Cell.Dead)
          (count_neighbours (neighbourSamples i (List.replicate 400 Cell.Dead))))) :=
  get_updated_board_spec (List.replicate 400 Cell.Dead) (by simp)

/-- C6: in a paused iteration the frame counter is not incremented and
the board is never replaced by the stepped board; it stays as it was,
except that a Redraw command replaces it with a fresh seeding. Rendering
happens only inside the active branch, which is not entered. -/
theorem paused_tick_frozen (s : SimState) (msg : Option Command)
    (draws : Nat → ℚ) (h : s.active = false) :
    ∃ s2, loop_iter s msg draws = some s2 ∧
      s2.frame = s.frame ∧
      s2.board = (if msg = some Command.Redraw then seedList s.ratio draws
                  else s.board) := by
  cases msg with
  | none => exact ⟨s, by simp [loop_iter, h], rfl, by simp⟩
  | some c =>
      cases c with
      | Pause =>
          exact ⟨{ s with active := !s.active }, by simp [loop_iter, h], rfl, by simp⟩
      | Redraw =>
          exact ⟨{ s with board := seedList s.ratio draws },
            by simp [loop_iter, h, generate_board_eq], rfl, by simp⟩
      | HigherRatio =>
          exact ⟨{ s with ratio := s.ratio + 0.05 }, by simp [loop_iter, h], rfl, by simp⟩
      | LowerRatio =>
          exact ⟨{ s with ratio := s.ratio - 0.05 }, by simp [loop_iter, h], rfl, by simp⟩
      | Faster =>
          exact ⟨{ s with sleep := fasterSleep s.sleep }, by simp [loop_iter, h], rfl, by simp⟩
      | Slower =>
          exact ⟨{ s with sleep := slowerSleep s.sleep }, by simp [loop_iter, h], rfl, by simp⟩

/-- C6, witness on a paused state with no pending command. -/
theorem paused_tick_frozen_witness :
    ∃ s2, loop_iter ⟨false, 5, 7 / 10, List.replicate 400 Cell.Dead, 700⟩
        none (fun _ => 1 / 2) = some s2 ∧
      s2.frame = (⟨false, 5, 7 / 10, List.replicate 400 Cell.Dead, 700⟩ : SimState).frame ∧
      s2.board = (if (none : Option Command) = some Command.Redraw then
                    seedList (⟨false, 5, 7 / 10, List.replicate 400 Cell.Dead, 700⟩ : SimState).ratio
                      (fun _ => 1 / 2)
                  else (⟨false, 5, 7 / 10, List.replicate 400 Cell.Dead, 700⟩ : SimState).board) :=
  paused_tick_frozen _ _ _ rfl

/-- Draining helper: running as many ticks as the queue holds applies the
queued commands one per tick, in FIFO order, and empties the queue. -/
theorem run_ticks_drains (queue : List Command) :
    ∀ (s : SimState) (dseq : Nat → Nat → ℚ),
      run_ticks queue.length s queue dseq =
        (applyAll s queue dseq).map (fun s2 => (s2, ([] : List Command))) := by
  induction queue with
  | nil => intro s dseq; rfl
  | cons c rest ih =>
      intro s dseq
      show (sim_tick s (c :: rest) (dseq 0)).bind
          (fun r => run_ticks rest.length r.1 r.2 (fun k => dseq (k + 1))) =
        ((loop_iter s (some c) (dseq 0)).bind
          (fun s2 => applyAll s2 rest (fun k => dseq (k + 1)))).map
          (fun s2 => (s2, ([] : List Command)))
      cases hl : loop_iter s (some c) (dseq 0) with
      | none => simp [sim_tick, try_recv, hl]
      | some s2 => simp [sim_tick, try_recv, hl, ih s2 (fun k => dseq (k + 1))]

/-- C7: the receive is non-blocking, an empty queue means the iteration
runs with no command; a non-empty queue gives up exactly its oldest
element, the rest stays queued; and running as many ticks as there are
queued commands applies them one per tick in FIFO order. -/
theorem command_consumption_spec (s : SimState) (draws : Nat → ℚ)
    (queue : List Command) (dseq : Nat → Nat → ℚ) :
    sim_tick s [] draws = (loop_iter s none draws).map (fun s2 => (s2, [])) ∧
    (∀ c rest, sim_tick s (c :: rest) draws =
      (loop_iter s (some c) draws).map (fun s2 => (s2, rest))) ∧
    run_ticks queue.length s queue dseq =
      (applyAll s queue dseq).map (fun s2 => (s2, [])) :=
  ⟨rfl, fun _ _ => rfl, run_ticks_drains queue s dseq⟩

/-- C8: relative to the same iteration with no command, Redraw replaces
the board with a fresh seeding at the current ratio and changes nothing
else: frame, active, ratio and sleep all match the command-free
iteration, and the command-free iteration itself keeps active, ratio and
sleep and increments the frame only when active. -/
theorem reseed_effect (s : SimState) (draws : Nat → ℚ) (s0 : SimState)
    (h : loop_iter s none draws = some s0) :
    loop_iter s (some Command.Redraw) draws =
      some { s0 with board := seedList s.ratio draws } ∧
    s0.active = s.active ∧ s0.ratio = s.ratio ∧ s0.sleep = s.sleep ∧
    s0.frame = (if s.active then s.frame + 1 else s.frame) := by
  cases hA : s.active with
  | false =>
      simp [loop_iter, hA] at h
      subst h
      refine ⟨?_, ?_, ?_, ?_, ?_⟩ <;> simp [loop_iter, hA, generate_board_eq]
  | true =>
      cases hub : get_updated_board s.board with
      | none => simp [loop_iter, hA, hub] at h
      | some b =>
          simp [loop_iter, hA, hub] at h
          subst h
          refine ⟨?_, ?_, ?_, ?_, ?_⟩ <;>
            simp [loop_iter, hA, hub, generate_board_eq]

/-- C8, witness on a paused state, where the command-free iteration is
the identity. -/
theorem reseed_effect_witness :
    loop_iter ⟨false, 5, 7 / 10, [], 700⟩ (some Command.Redraw) (fun _ => 1 / 2) =
      some { (⟨false, 5, 7 / 10, [], 700⟩ : SimState) with
              board := seedList (7 / 10) (fun _ => 1 / 2) } ∧
    (⟨false, 5, 7 / 10, [], 700⟩ : SimState).active =
      (⟨false, 5, 7 / 10, ([] : List Cell), 700⟩ : SimState).active ∧
    (⟨false, 5, 7 / 10, [], 700⟩ : SimState).ratio =
      (⟨false, 5, 7 / 10, ([] : List Cell), 700⟩ : SimState).ratio ∧
    (⟨false, 5, 7 / 10, [], 700⟩ : SimState).sleep =
      (⟨false, 5, 7 / 10, ([] : List Cell), 700⟩ : SimState).sleep ∧
    (⟨false, 5, 7 / 10, [], 700⟩ : SimState).frame =
      (if (⟨false, 5, 7 / 10, ([] : List Cell), 700⟩ : SimState).active then
        (⟨false, 5, 7 / 10, ([] : List Cell), 700⟩ : SimState).frame + 1
       else (⟨false, 5, 7 / 10, ([] : List Cell), 700⟩ : SimState).frame) :=
  reseed_effect ⟨false, 5, 7 / 10, [], 700⟩ (fun _ => 1 / 2)
    ⟨false, 5, 7 / 10, [], 700⟩ rfl

/-- C10: the sleep interval is a u64 and cannot go negative; subtracting
50 is underflow-free exactly under the precondition 50 le sleep; from the
initial 700, each of the first 14 consecutive Faster commands lands on
700 minus 50 times the count, the 14th reaches 0, and the 15th hits the
underflow branch, wrapping to 2 to the 64 minus 50 instead of minus 50;
a Faster command in a paused iteration updates the state with exactly
this wrapped subtraction. -/
theorem faster_underflow_spec :
    (∀ sl, sl < 2 ^ 64 → 50 ≤ sl → fasterSleep sl = sl - 50) ∧
    (∀ n, n ≤ 14 → speedUps n = 700 - 50 * n) ∧
    (∀ n, n ≤ 13 → 50 ≤ speedUps n) ∧
    speedUps 14 = 0 ∧ speedUps 14 < 50 ∧
    speedUps 15 = 2 ^ 64 - 50 ∧
    (∀ s draws, s.active = false →
      loop_iter s (some Command.Faster) draws =
        some { s with sleep := fasterSleep s.sleep }) := by
  refine ⟨?_, by decide, by decide, by decide, by decide, by decide, ?_⟩
  · intro sl h1 h2
    have hp : (2 : Nat) ^ 64 = 18446744073709551616 := by norm_num
    simp only [fasterSleep, hp]
    omega
  · intro s draws h
    simp [loop_iter, h]

/-- C10, witness: the 14th consecutive Faster command lands exactly on
zero, underflow-free. -/
theorem faster_underflow_spec_witness :
    speedUps 14 = 700 - 50 * 14 :=
  faster_underflow_spec.2.1 14 (by decide)

end Life
